import Mathlib

/-!
Verification development for the l2-router-bot repository.

The repository estimates the gas cost of a native transfer on several L2
networks, selects the cheapest one, and optionally signs and broadcasts the
transfer there.  This file gives a shallow embedding of the first-party
logic:

* `select_cheapest_network`  (src/l2_router_bot/router.py, lines 74-87);
* `estimate_transfer_costs`  (src/l2_router_bot/router.py, lines 24-71);
* `TransactionSender`        (src/l2_router_bot/tx_sender.py);
* the `route_and_send` endpoint (src/l2_router_bot/main.py, lines 133-156).

Python dictionaries iterate in insertion order, so a mapping is embedded as
an association list `List (String × FeeData)`; a dictionary with optional
keys is embedded as a structure of `Option` fields (a `none` field means
the key is absent).  External effects (RPC queries, the price oracle,
signing) are supplied by environment records of explicit functions, and
the calls actually issued are recorded in an event trace.
-/

namespace L2Router

/-- One entry of the per-network cost mapping: the Python dict produced by
`estimate_transfer_costs` (all keys present for a success, only `error` for
a failure) or any dict handed to `select_cheapest_network` (keys may be
missing, which `none` represents). -/
structure FeeData where
  error : Option String
  gas_price_wei : Option Int
  estimated_gas : Option Int
  total_fee_wei : Option Int
  total_fee_native : Option ℚ
  total_fee_usd : Option (Option ℚ)
deriving DecidableEq

/-- A dict `{"error": msg}`. -/
def failureEntry (msg : String) : FeeData :=
  ⟨some msg, none, none, none, none, none⟩

/-- A dict holding only `total_fee_wei`, as used by the unit tests of the
repository (tests/test_router.py). -/
def feeOnlyEntry (fee : Int) : FeeData :=
  ⟨none, none, none, some fee, none, none⟩

/-- An entry with an `error` key (a Failure in the data model of the spec). -/
def isFailureEntry (d : FeeData) : Bool :=
  d.error.isSome

/-- An entry with no `error` key and a present `total_fee_wei` (a Success
in the data model of the spec, as far as selection reads it). -/
def isSuccessEntry (d : FeeData) : Bool :=
  d.error.isNone && d.total_fee_wei.isSome

/-- The loop of `select_cheapest_network` (router.py lines 78-86): iterate
the mapping, skip entries with an `error` key, skip entries whose
`total_fee_wei` is absent, and keep the strictly smallest fee seen so far
together with its network name. -/
def selectLoop : List (String × FeeData) → Option String → Option Int → Option String
  | [], cheapest_name, _ => cheapest_name
  | (name, data) :: rest, cheapest_name, cheapest_fee =>
    if data.error.isSome then
      selectLoop rest cheapest_name cheapest_fee
    else
      match data.total_fee_wei with
      | none => selectLoop rest cheapest_name cheapest_fee
      | some fee =>
        match cheapest_fee with
        | none => selectLoop rest (some name) (some fee)
        | some cf =>
          if fee < cf then selectLoop rest (some name) (some fee)
          else selectLoop rest cheapest_name (some cf)

/-- `select_cheapest_network` (router.py lines 74-87): both accumulators
start as Python `None`. -/
def select_cheapest_network (costs : List (String × FeeData)) : Option String :=
  selectLoop costs none none

/-- The `total_fee_wei` values of the Success entries of a mapping, in
iteration order. -/
def successFees (costs : List (String × FeeData)) : List Int :=
  costs.filterMap fun p =>
    match p.2.error with
    | some _ => none
    | none => p.2.total_fee_wei

/-- Immutable configuration of one network (networks.py lines 29-43). -/
structure NetworkConfig where
  name : String
  rpc_url : String
  chain_id : Int
  native_symbol : String
deriving DecidableEq

/-- DEFAULT_NETWORKS (networks.py lines 49-68), in insertion order. -/
def DEFAULT_NETWORKS : List (String × NetworkConfig) :=
  [("arbitrum", ⟨"arbitrum", "https://arb1.arbitrum.io/rpc", 42161, "ETH"⟩),
   ("optimism", ⟨"optimism", "https://mainnet.optimism.io", 10, "ETH"⟩),
   ("base", ⟨"base", "https://mainnet.base.org", 8453, "ETH"⟩)]

/-- get_networks (networks.py lines 71-99): each default network appears,
with its rpc_url replaced when the environment holds a truthy override
named after the network. -/
def get_networks (getenv : String → Option String) : List (String × NetworkConfig) :=
  DEFAULT_NETWORKS.map fun p =>
    match getenv (p.1.toUpper ++ "_RPC_URL") with
    | some url =>
      if url = "" then p
      else (p.1, ⟨p.2.name, url, p.2.chain_id, p.2.native_symbol⟩)
    | none => p

/-- The external calls the embedded code can issue, recorded as a trace so
that theorems can speak about which calls were made. -/
inductive Event where
  | gasPriceQuery (network : String)
  | nonceQuery (network : String)
  | gasEstimateQuery (network : String)
  | oracleQuery (symbol : String)
  | senderConstructed
  | sendTransferCall (network : String)
  | broadcastCall (network : String)
deriving DecidableEq

/-- Events that belong to the dispatch path (constructing or invoking the
transaction sender) rather than to estimation. -/
def Event.isDispatch : Event → Bool
  | .senderConstructed => true
  | .sendTransferCall _ => true
  | .broadcastCall _ => true
  | _ => false

/-- Number of price-oracle calls in a trace. -/
def countOracle (evs : List Event) : Nat :=
  (evs.filter fun e => match e with | .oracleQuery _ => true | _ => false).length

/-- The Python exceptions the embedded code raises, by raise site.
`invalidAddress` (router.py line 40, tx_sender.py line 77),
`unsupportedNetwork` (tx_sender.py line 69) and `missingCredential`
(tx_sender.py line 39) are `ValueError`s in the source; `exn` is any
other propagated exception (RPC failures, `StopIteration`, signing
failures), carrying `str(exc)`. -/
inductive PyError where
  | invalidAddress (msg : String)
  | unsupportedNetwork (network : String)
  | missingCredential
  | exn (msg : String)
deriving DecidableEq

/-- Which embedded exceptions are Python `ValueError`s. -/
def PyError.isValueError : PyError → Bool
  | .invalidAddress _ => true
  | .unsupportedNetwork _ => true
  | .missingCredential => true
  | .exn _ => false

/-- `str(exc)` for an embedded exception. -/
def PyError.toMessage : PyError → String
  | .invalidAddress m => m
  | .unsupportedNetwork n => "Unsupported network " ++ n
  | .missingCredential => "A private key must be supplied via the private_key parameter or the PRIVATE_KEY environment variable."
  | .exn m => m

/-- The candidate transaction shape used for gas estimation
(router.py lines 47-52); `from` is a Lean keyword, so the field is named
`from_addr`. -/
structure TxRequest where
  from_addr : String
  to_addr : String
  value : Int
  nonce : Int
deriving DecidableEq

/-- The external collaborators of `estimate_transfer_costs`: the registry
snapshot, checksum validation (chain-agnostic, router.py lines 35-40), the
three per-network RPC queries, and the price oracle.  `Except.error e`
models a raised exception with `str(exc) = e`; `token_price` never raises
(price_feed.py lines 45-54) and returns `none` when the price is
unavailable. -/
structure EstimateEnv where
  networks : List (String × NetworkConfig)
  to_checksum_address : String → Except String String
  gas_price : String → Except String Int
  get_transaction_count : String → String → Except String Int
  estimate_gas : String → TxRequest → Except String Int
  token_price : String → Option ℚ

/-- The body of the per-network loop of `estimate_transfer_costs`
(router.py lines 42-70): the try block runs the three queries in order,
stopping at the first raised exception, which becomes a failure entry for
this network only; otherwise the fee fields are computed (the native fee
is the exact rational wei/10^18) and the oracle is consulted when
`include_usd` is set.  Returns the entry for the network and the calls
issued for it. -/
def estimate_one (env : EstimateEnv) (name : String) (cfg : NetworkConfig)
    (from_checksum to_checksum : String) (amount_wei : Int) (include_usd : Bool) :
    FeeData × List Event :=
  match env.gas_price name with
  | .error e => (failureEntry e, [.gasPriceQuery name])
  | .ok gas_price =>
    match env.get_transaction_count name from_checksum with
    | .error e => (failureEntry e, [.gasPriceQuery name, .nonceQuery name])
    | .ok nonce =>
      match env.estimate_gas name ⟨from_checksum, to_checksum, amount_wei, nonce⟩ with
      | .error e =>
        (failureEntry e,
         [.gasPriceQuery name, .nonceQuery name, .gasEstimateQuery name])
      | .ok estimated_gas =>
        let total_fee_wei : Int := gas_price * estimated_gas
        let total_fee_native : ℚ := (total_fee_wei : ℚ) / ((10 : ℚ) ^ 18)
        if include_usd then
          let fee_usd : Option ℚ :=
            match env.token_price cfg.native_symbol with
            | some price => some (total_fee_native * price)
            | none => none
          (⟨none, some gas_price, some estimated_gas, some total_fee_wei,
            some total_fee_native, some fee_usd⟩,
           [.gasPriceQuery name, .nonceQuery name, .gasEstimateQuery name,
            .oracleQuery cfg.native_symbol])
        else
          (⟨none, some gas_price, some estimated_gas, some total_fee_wei,
            some total_fee_native, some none⟩,
           [.gasPriceQuery name, .nonceQuery name, .gasEstimateQuery name])

/-- The `for name, cfg in networks.items()` loop of
`estimate_transfer_costs` (router.py lines 42-70), accumulating the
result mapping in iteration order and the trace of calls. -/
def estimate_loop (env : EstimateEnv) (from_checksum to_checksum : String)
    (amount_wei : Int) (include_usd : Bool) :
    List (String × NetworkConfig) → List (String × FeeData) × List Event
  | [] => ([], [])
  | (name, cfg) :: rest =>
    let one := estimate_one env name cfg from_checksum to_checksum amount_wei include_usd
    let tail := estimate_loop env from_checksum to_checksum amount_wei include_usd rest
    ((name, one.1) :: tail.1, one.2 ++ tail.2)

/-- `estimate_transfer_costs` (router.py lines 24-71).  With an empty
registry, `next(iter(clients.values()))` raises `StopIteration` before
anything else.  Otherwise both addresses are checksummed first; a failure
there raises `ValueError` before any per-network query.  Then the
per-network loop runs over every configured network.  Returns the
outcome together with the trace of RPC/oracle calls issued. -/
def estimate_transfer_costs (env : EstimateEnv)
    (from_address to_address : String) (amount_wei : Int) (include_usd : Bool) :
    Except PyError (List (String × FeeData)) × List Event :=
  match env.networks with
  | [] => (.error (.exn "StopIteration"), [])
  | _ :: _ =>
    match env.to_checksum_address from_address with
    | .error e => (.error (.invalidAddress ("Invalid address provided: " ++ e)), [])
    | .ok from_checksum =>
      match env.to_checksum_address to_address with
      | .error e => (.error (.invalidAddress ("Invalid address provided: " ++ e)), [])
      | .ok to_checksum =>
        let run := estimate_loop env from_checksum to_checksum amount_wei include_usd env.networks
        (.ok run.1, run.2)

/-- Whether all three RPC queries of the per-network try block succeed for
a given network (so the loop body reaches the fee computation). -/
def queriesSucceed (env : EstimateEnv) (from_checksum to_checksum : String)
    (amount_wei : Int) (name : String) : Bool :=
  match env.gas_price name with
  | .error _ => false
  | .ok _gp =>
    match env.get_transaction_count name from_checksum with
    | .error _ => false
    | .ok nonce =>
      match env.estimate_gas name ⟨from_checksum, to_checksum, amount_wei, nonce⟩ with
      | .error _ => false
      | .ok _ => true

/-- The sender holds the configured private key (tx_sender.py line 43). -/
structure TransactionSender where
  private_key : String
deriving DecidableEq

/-- Python `a or b` on optional strings: the first operand wins when it is
truthy (present and non-empty). -/
def pyOrStr (a b : Option String) : Option String :=
  match a with
  | some s => if s = "" then b else some s
  | none => b

/-- Python truthiness of an optional string. -/
def truthyStr (a : Option String) : Bool :=
  match a with
  | some s => decide (s ≠ "")
  | none => false

/-- `TransactionSender.__init__` (tx_sender.py lines 36-43): take the
argument or fall back to the PRIVATE_KEY environment value; raise
`ValueError` when the result is still falsy. -/
def TransactionSender.init (private_key env_private_key : Option String) :
    Except PyError TransactionSender :=
  match pyOrStr private_key env_private_key with
  | none => .error .missingCredential
  | some k => if k = "" then .error .missingCredential else .ok ⟨k⟩

/-- The transaction dict built by `send_transfer` (tx_sender.py lines
80-92), after the estimated gas limit is attached. -/
structure TxFull where
  chainId : Int
  to_addr : String
  value : Int
  nonce : Int
  gasPrice : Int
  gas : Int
deriving DecidableEq

/-- External collaborators of `send_transfer` (tx_sender.py lines 45-95):
registry snapshot, checksum validation, nonce and gas-price queries, the
gas estimate over the simpler from/to/value shape, signing (returning the
raw signed bytes), broadcasting (returning the transaction hash bytes),
and the hex rendering of the hash. -/
structure SendEnv where
  networks : List (String × NetworkConfig)
  to_checksum_address : String → Except String String
  get_transaction_count : String → String → Except String Int
  gas_price : String → Except String Int
  estimate_gas_ft : String → String → String → Int → Except String Int
  sign_transaction : String → TxFull → String → Except String String
  send_raw_transaction : String → String → Except String String
  to_hex : String → String

/-- `TransactionSender.send_transfer` (tx_sender.py lines 45-95): check
the network name against the registry, checksum both addresses (raising
`ValueError` on failure), fetch nonce then gas price, estimate the gas
limit, build and sign the transaction with the key of the sender, broadcast
it, and return the hex transaction hash.  RPC/signing failures propagate
as generic exceptions. -/
def TransactionSender.send_transfer (env : SendEnv) (s : TransactionSender)
    (network_name from_address to_address : String) (amount_wei : Int) :
    Except PyError String × List Event :=
  match env.networks.lookup network_name with
  | none => (.error (.unsupportedNetwork network_name), [.sendTransferCall network_name])
  | some cfg =>
    match env.to_checksum_address from_address with
    | .error e =>
      (.error (.invalidAddress ("Invalid address provided: " ++ e)),
       [.sendTransferCall network_name])
    | .ok from_checksum =>
      match env.to_checksum_address to_address with
      | .error e =>
        (.error (.invalidAddress ("Invalid address provided: " ++ e)),
         [.sendTransferCall network_name])
      | .ok to_checksum =>
        match env.get_transaction_count network_name from_checksum with
        | .error e =>
          (.error (.exn e),
           [.sendTransferCall network_name, .nonceQuery network_name])
        | .ok nonce =>
          match env.gas_price network_name with
          | .error e =>
            (.error (.exn e),
             [.sendTransferCall network_name, .nonceQuery network_name,
              .gasPriceQuery network_name])
          | .ok gas_price =>
            match env.estimate_gas_ft network_name from_checksum to_checksum amount_wei with
            | .error e =>
              (.error (.exn e),
               [.sendTransferCall network_name, .nonceQuery network_name,
                .gasPriceQuery network_name, .gasEstimateQuery network_name])
            | .ok gas_limit =>
              match env.sign_transaction network_name
                  ⟨cfg.chain_id, to_checksum, amount_wei, nonce, gas_price, gas_limit⟩
                  s.private_key with
              | .error e =>
                (.error (.exn e),
                 [.sendTransferCall network_name, .nonceQuery network_name,
                  .gasPriceQuery network_name, .gasEstimateQuery network_name])
              | .ok raw =>
                match env.send_raw_transaction network_name raw with
                | .error e =>
                  (.error (.exn e),
                   [.sendTransferCall network_name, .nonceQuery network_name,
                    .gasPriceQuery network_name, .gasEstimateQuery network_name,
                    .broadcastCall network_name])
                | .ok tx_hash =>
                  (.ok (env.to_hex tx_hash),
                   [.sendTransferCall network_name, .nonceQuery network_name,
                    .gasPriceQuery network_name, .gasEstimateQuery network_name,
                    .broadcastCall network_name])

/-- POST body schema of the estimate/route endpoints (main.py lines
41-47); the decimal ETH amount is embedded as an exact rational. -/
structure EstimateRequest where
  from_address : String
  to_address : String
  amount_eth : ℚ
  include_usd : Bool

/-- `Web3.to_wei(x, "ether")`: scale to wei, i.e. by 10^18 (exact for the
decimal amounts the endpoint accepts; embedded with a floor on ℚ). -/
def to_wei_ether (x : ℚ) : Int :=
  (x * ((10 : ℚ) ^ 18)).floor

/-- Outcome of the `route_and_send` endpoint: a JSON success, an
`HTTPException` with a status code and detail string, or an exception
that escapes the handler (FastAPI then reports an internal error). -/
inductive RouteSendResult where
  | ok (network : String) (tx_hash : String) (costs : List (String × FeeData))
  | httpError (status : Nat) (detail : String)
  | uncaught (e : PyError)
deriving DecidableEq

/-- The `route_and_send` endpoint (main.py lines 133-156): convert the
amount to wei, estimate across all networks (exceptions escape), select
the cheapest network, answer 500 when none was viable, otherwise
construct a `TransactionSender` (outside the try, so a missing credential
escapes) and send, turning any send failure into a 500 with the
message of the exception. -/
def route_and_send (eenv : EstimateEnv) (senv : SendEnv)
    (env_private_key : Option String) (req : EstimateRequest) :
    RouteSendResult × List Event :=
  let amount_wei := to_wei_ether req.amount_eth
  match estimate_transfer_costs eenv req.from_address req.to_address amount_wei req.include_usd with
  | (.error e, evs) => (.uncaught e, evs)
  | (.ok costs, evs) =>
    match select_cheapest_network costs with
    | none => (.httpError 500 "Failed to estimate costs on all networks", evs)
    | some network =>
      match TransactionSender.init none env_private_key with
      | .error e => (.uncaught e, evs ++ [.senderConstructed])
      | .ok sender =>
        match TransactionSender.send_transfer senv sender network req.from_address req.to_address amount_wei with
        | (.error e, evs2) => (.httpError 500 e.toMessage, evs ++ [.senderConstructed] ++ evs2)
        | (.ok tx_hash, evs2) => (.ok network tx_hash costs, evs ++ [.senderConstructed] ++ evs2)

/-- Spec scenario 1 (tests/test_router.py lines 14-18): three Success
entries. -/
def scenarioCosts1 : List (String × FeeData) :=
  [("arbitrum", feeOnlyEntry 100), ("optimism", feeOnlyEntry 50), ("base", feeOnlyEntry 75)]

/-- A concrete estimation environment over the default registry in which
every query succeeds: gas price 2 wei, nonce 7, gas estimate 3, no USD
price available. -/
def happyEnv : EstimateEnv :=
  ⟨DEFAULT_NETWORKS,
   fun a => if a = "0xbad" then .error "checksum failed" else .ok a,
   fun _ => .ok 2,
   fun _ _ => .ok 7,
   fun _ _ => .ok 3,
   fun _ => none⟩

/-- A concrete environment in which the optimism gas-price query raises
and the other networks succeed. -/
def mixedEnv : EstimateEnv :=
  ⟨DEFAULT_NETWORKS,
   fun a => if a = "0xbad" then .error "checksum failed" else .ok a,
   fun n => if n = "optimism" then .error "RPC unreachable" else .ok 3,
   fun _ _ => .ok 7,
   fun _ _ => .ok 21000,
   fun _ => none⟩

/-- A concrete environment in which the gas-price query of every network
raises. -/
def allFailEnv : EstimateEnv :=
  ⟨DEFAULT_NETWORKS,
   fun a => .ok a,
   fun _ => .error "down",
   fun _ _ => .ok 0,
   fun _ _ => .ok 0,
   fun _ => none⟩

/-- A concrete dispatch environment in which every call succeeds. -/
def stubSendEnv : SendEnv :=
  ⟨DEFAULT_NETWORKS,
   fun a => .ok a,
   fun _ _ => .ok 0,
   fun _ => .ok 1,
   fun _ _ _ _ => .ok 21000,
   fun _ _ _ => .ok "rawbytes",
   fun _ _ => .ok "hashbytes",
   fun h => "0x" ++ h⟩

/-- A concrete request body. -/
def wReq : EstimateRequest :=
  ⟨"0xa", "0xb", 1, false⟩

theorem successFees_cons (p : String × FeeData) (rest : List (String × FeeData)) :
    successFees (p :: rest) =
      (match p.2.error with
       | some _ => successFees rest
       | none =>
         match p.2.total_fee_wei with
         | some f => f :: successFees rest
         | none => successFees rest) := by
  cases h : p.2.error with
  | some m => simp [successFees, List.filterMap_cons, h]
  | none =>
    cases hf : p.2.total_fee_wei with
    | some f => simp [successFees, List.filterMap_cons, h, hf]
    | none => simp [successFees, List.filterMap_cons, h, hf]

theorem mem_successFees (costs : List (String × FeeData)) (g : Int) :
    g ∈ successFees costs ↔
      ∃ m e, (m, e) ∈ costs ∧ e.error = none ∧ e.total_fee_wei = some g := by
  constructor
  · intro hmem
    rw [successFees, List.mem_filterMap] at hmem
    obtain ⟨p, hp, heq⟩ := hmem
    cases herr : p.2.error with
    | some m => rw [herr] at heq; exact absurd heq (by simp)
    | none =>
      rw [herr] at heq
      exact ⟨p.1, p.2, by simpa using hp, herr, heq⟩
  · rintro ⟨m, e, hmem, herr, hfee⟩
    rw [successFees, List.mem_filterMap]
    exact ⟨(m, e), hmem, by simp [herr, hfee]⟩

/-- If the tracked fee is already at most every remaining success fee, the
loop never replaces the tracked name: strict less-than keeps the holder. -/
theorem selectLoop_keep (l : List (String × FeeData)) (nm : String) (f : Int)
    (h : ∀ g ∈ successFees l, f ≤ g) :
    selectLoop l (some nm) (some f) = some nm := by
  induction l with
  | nil => rfl
  | cons p rest ih =>
    obtain ⟨name, data⟩ := p
    rw [successFees_cons] at h
    cases herr : data.error with
    | some m =>
      rw [herr] at h
      simpa [selectLoop, herr] using ih h
    | none =>
      cases hfee : data.total_fee_wei with
      | none =>
        rw [herr, hfee] at h
        simpa [selectLoop, herr, hfee] using ih h
      | some g =>
        rw [herr, hfee] at h
        have hfg : f ≤ g := h g (by simp)
        have hrest : ∀ q ∈ successFees rest, f ≤ q := fun q hq => h q (by simp [hq])
        have : ¬ g < f := not_lt.mpr hfg
        simpa [selectLoop, herr, hfee, this] using ih hrest

/-- Once the accumulators are non-`None`, the loop returns a name. -/
theorem selectLoop_isSome (l : List (String × FeeData)) (nm : String) (f : Int) :
    ∃ m, selectLoop l (some nm) (some f) = some m := by
  induction l generalizing nm f with
  | nil => exact ⟨nm, rfl⟩
  | cons p rest ih =>
    obtain ⟨name, data⟩ := p
    cases herr : data.error with
    | some m => simpa [selectLoop, herr] using ih nm f
    | none =>
      cases hfee : data.total_fee_wei with
      | none => simpa [selectLoop, herr, hfee] using ih nm f
      | some g =>
        by_cases hlt : g < f
        · simpa [selectLoop, herr, hfee, hlt] using ih name g
        · simpa [selectLoop, herr, hfee, hlt] using ih nm f

/-- The selection returns `none` exactly on mappings with no Success
entry. -/
theorem select_none_iff (costs : List (String × FeeData)) :
    select_cheapest_network costs = none ↔ successFees costs = [] := by
  rw [select_cheapest_network]
  induction costs with
  | nil => simp [selectLoop, successFees]
  | cons p rest ih =>
    obtain ⟨name, data⟩ := p
    cases herr : data.error with
    | some m =>
      rw [successFees_cons]
      simpa [selectLoop, herr] using ih
    | none =>
      cases hfee : data.total_fee_wei with
      | none =>
        rw [successFees_cons]
        simpa [selectLoop, herr, hfee] using ih
      | some g =>
        rw [successFees_cons]
        simp only [herr, hfee]
        constructor
        · intro h
          obtain ⟨m, hm⟩ := selectLoop_isSome rest name g
          rw [selectLoop] at h
          simp [herr, hfee, hm] at h
        · intro h
          exact absurd h (by simp)

/-- Accumulator-generalised minimality: whatever name the loop returns is
either the incoming holder (and then the incoming fee is a lower bound) or
an entry of the list whose fee strictly improves on the incoming fee and
is a lower bound of every success fee of the list. -/
theorem selectLoop_min (l : List (String × FeeData)) (nm : String) (cf : Int)
    (n : String) (h : selectLoop l (some nm) (some cf) = some n) :
    (n = nm ∧ ∀ g ∈ successFees l, cf ≤ g) ∨
    (∃ d f, (n, d) ∈ l ∧ d.error = none ∧ d.total_fee_wei = some f ∧
      f < cf ∧ ∀ g ∈ successFees l, f ≤ g) := by
  induction l generalizing nm cf with
  | nil =>
    left
    refine ⟨by simpa [selectLoop] using h.symm, ?_⟩
    simp [successFees]
  | cons p rest ih =>
    obtain ⟨name, data⟩ := p
    cases herr : data.error with
    | some m =>
      rw [selectLoop] at h
      simp only [herr, Option.isSome_some, if_true] at h
      rcases ih nm cf h with ⟨heq, hbound⟩ | ⟨d, f, hmem, he, hf, hlt, hbound⟩
      · left
        refine ⟨heq, ?_⟩
        rw [successFees_cons]
        simpa [herr] using hbound
      · right
        refine ⟨d, f, List.mem_cons_of_mem _ hmem, he, hf, hlt, ?_⟩
        rw [successFees_cons]
        simpa [herr] using hbound
    | none =>
      cases hfee : data.total_fee_wei with
      | none =>
        rw [selectLoop] at h
        simp only [herr, Option.isSome_none, if_false, hfee] at h
        rcases ih nm cf h with ⟨heq, hbound⟩ | ⟨d, f, hmem, he, hf, hlt, hbound⟩
        · left
          refine ⟨heq, ?_⟩
          rw [successFees_cons]
          simpa [herr, hfee] using hbound
        · right
          refine ⟨d, f, List.mem_cons_of_mem _ hmem, he, hf, hlt, ?_⟩
          rw [successFees_cons]
          simpa [herr, hfee] using hbound
      | some g =>
        by_cases hlt : g < cf
        · rw [selectLoop] at h
          simp only [herr, Option.isSome_none, if_false, hfee, hlt, if_true] at h
          rcases ih name g h with ⟨heq, hbound⟩ | ⟨d, f, hmem, he, hf, hlt2, hbound⟩
          · right
            refine ⟨data, g, ?_, herr, hfee, hlt, ?_⟩
            · rw [heq]; exact List.mem_cons_self _ _
            · rw [successFees_cons]
              simp only [herr, hfee]
              intro q hq
              rcases List.mem_cons.mp hq with hq | hq
              · exact le_of_eq hq.symm
              · exact hbound q hq
          · right
            refine ⟨d, f, List.mem_cons_of_mem _ hmem, he, hf, lt_trans hlt2 hlt, ?_⟩
            rw [successFees_cons]
            simp only [herr, hfee]
            intro q hq
            rcases List.mem_cons.mp hq with hq | hq
            · exact hq ▸ le_of_lt hlt2
            · exact hbound q hq
        · rw [selectLoop] at h
          simp only [herr, Option.isSome_none, if_false, hfee, hlt, if_false] at h
          rcases ih nm cf h with ⟨heq, hbound⟩ | ⟨d, f, hmem, he, hf, hlt2, hbound⟩
          · left
            refine ⟨heq, ?_⟩
            rw [successFees_cons]
            simp only [herr, hfee]
            intro q hq
            rcases List.mem_cons.mp hq with hq | hq
            · exact hq ▸ not_lt.mp hlt
            · exact hbound q hq
          · right
            refine ⟨d, f, List.mem_cons_of_mem _ hmem, he, hf, hlt2, ?_⟩
            rw [successFees_cons]
            simp only [herr, hfee]
            intro q hq
            rcases List.mem_cons.mp hq with hq | hq
            · exact hq ▸ le_of_lt (lt_of_lt_of_le hlt2 (not_lt.mp hlt))
            · exact hbound q hq

/-- When the selection returns a name, that name is paired in the mapping
with a Success entry whose fee is a global minimum of the success fees. -/
theorem select_some_min (costs : List (String × FeeData)) (n : String)
    (h : select_cheapest_network costs = some n) :
    ∃ d f, (n, d) ∈ costs ∧ d.error = none ∧ d.total_fee_wei = some f ∧
      ∀ g ∈ successFees costs, f ≤ g := by
  rw [select_cheapest_network] at h
  induction costs with
  | nil => exact absurd h (by simp [selectLoop])
  | cons p rest ih =>
    obtain ⟨name, data⟩ := p
    cases herr : data.error with
    | some m =>
      rw [selectLoop] at h
      simp only [herr, Option.isSome_some, if_true] at h
      obtain ⟨d, f, hmem, he, hf, hbound⟩ := ih h
      refine ⟨d, f, List.mem_cons_of_mem _ hmem, he, hf, ?_⟩
      rw [successFees_cons]
      simpa [herr] using hbound
    | none =>
      cases hfee : data.total_fee_wei with
      | none =>
        rw [selectLoop] at h
        simp only [herr, Option.isSome_none, if_false, hfee] at h
        obtain ⟨d, f, hmem, he, hf, hbound⟩ := ih h
        refine ⟨d, f, List.mem_cons_of_mem _ hmem, he, hf, ?_⟩
        rw [successFees_cons]
        simpa [herr, hfee] using hbound
      | some g =>
        rw [selectLoop] at h
        simp only [herr, Option.isSome_none, if_false, hfee] at h
        rcases selectLoop_min rest name g n h with ⟨heq, hbound⟩ | ⟨d, f, hmem, he, hf, hlt, hbound⟩
        · refine ⟨data, g, ?_, herr, hfee, ?_⟩
          · rw [heq]; exact List.mem_cons_self _ _
          · rw [successFees_cons]
            simp only [herr, hfee]
            intro q hq
            rcases List.mem_cons.mp hq with hq | hq
            · exact le_of_eq hq.symm
            · exact hbound q hq
        · refine ⟨d, f, List.mem_cons_of_mem _ hmem, he, hf, ?_⟩
          rw [successFees_cons]
          simp only [herr, hfee]
          intro q hq
          rcases List.mem_cons.mp hq with hq | hq
          · exact hq ▸ le_of_lt hlt
          · exact hbound q hq

/-- A mapping has an empty success-fee list exactly when it has no
Success entry. -/
theorem successFees_eq_nil (costs : List (String × FeeData)) :
    successFees costs = [] ↔ ∀ p ∈ costs, isSuccessEntry p.2 = false := by
  rw [successFees, List.filterMap_eq_nil_iff]
  constructor
  · intro h p hp
    have hpn := h p hp
    cases herr : p.2.error with
    | some m => simp [isSuccessEntry, herr]
    | none =>
      rw [herr] at hpn
      have hfe : p.2.total_fee_wei = none := hpn
      simp [isSuccessEntry, herr, hfe]
  · intro h p hp
    have hpn := h p hp
    cases herr : p.2.error with
    | some m => simp [herr]
    | none =>
      simp only [isSuccessEntry, herr, Option.isNone_none, Bool.true_and] at hpn
      simp only [herr]
      exact Option.not_isSome_iff_eq_none.mp (by simp [hpn])

/-- Claim C1: `select_cheapest_network` returns `none` exactly when the
mapping holds no Success entry, and any name it returns is paired in the
mapping with a Success entry whose `total_fee_wei` is the global minimum
over all Success entries. -/
theorem C1_select_cheapest_min (costs : List (String × FeeData)) :
    (select_cheapest_network costs = none ↔ ∀ p ∈ costs, isSuccessEntry p.2 = false) ∧
    (∀ n, select_cheapest_network costs = some n →
      ∃ d f, (n, d) ∈ costs ∧ d.error = none ∧ d.total_fee_wei = some f ∧
        ∀ m e g, (m, e) ∈ costs → e.error = none → e.total_fee_wei = some g → f ≤ g) := by
  constructor
  · rw [select_none_iff, successFees_eq_nil]
  · intro n h
    obtain ⟨d, f, hmem, he, hf, hbound⟩ := select_some_min costs n h
    exact ⟨d, f, hmem, he, hf, fun m e g hm he2 hf2 =>
      hbound g ((mem_successFees costs g).mpr ⟨m, e, hm, he2, hf2⟩)⟩

/-- Witness for C1 on the first concrete scenario of the spec. -/
theorem C1_select_cheapest_min_witness :
    ∃ d f, ("optimism", d) ∈ scenarioCosts1 ∧ d.error = none ∧ d.total_fee_wei = some f ∧
      ∀ m e g, (m, e) ∈ scenarioCosts1 → e.error = none → e.total_fee_wei = some g → f ≤ g :=
  (C1_select_cheapest_min scenarioCosts1).2 "optimism" (by decide)

/-- Accumulator-generalised form of the tie-break property: if every
Success fee strictly before the entry `(n, d)` is strictly above `f`, the
incoming tracked fee (when present) is strictly above `f`, and every
Success fee after it is at least `f`, the loop returns `n`. -/
theorem selectLoop_first_min (n : String) (d : FeeData) (f : Int)
    (post : List (String × FeeData))
    (hd : d.error = none) (hf : d.total_fee_wei = some f)
    (hpost : ∀ g ∈ successFees post, f ≤ g) :
    ∀ (pre : List (String × FeeData)) (cn : Option String) (cf : Option Int),
      (cf = none ∨ ∃ c, cf = some c ∧ f < c) →
      (∀ g ∈ successFees pre, f < g) →
      selectLoop (pre ++ (n, d) :: post) cn cf = some n := by
  intro pre
  induction pre with
  | nil =>
    intro cn cf hcf _
    rw [List.nil_append]
    rcases hcf with rfl | ⟨c, rfl, hc⟩
    · simp only [selectLoop, hd, Option.isSome_none, Bool.false_eq_true, if_false, hf]
      exact selectLoop_keep post n f hpost
    · simp only [selectLoop, hd, Option.isSome_none, Bool.false_eq_true, if_false, hf]
      rw [if_pos hc]
      exact selectLoop_keep post n f hpost
  | cons p pre' ih =>
    intro cn cf hcf hpre
    obtain ⟨name, data⟩ := p
    rw [successFees_cons] at hpre
    rw [List.cons_append]
    cases herr : data.error with
    | some m =>
      rw [herr] at hpre
      simp only [selectLoop, herr, Option.isSome_some, if_true]
      exact ih cn cf hcf hpre
    | none =>
      cases hfee : data.total_fee_wei with
      | none =>
        rw [herr, hfee] at hpre
        simp only [selectLoop, herr, Option.isSome_none, Bool.false_eq_true, if_false, hfee]
        exact ih cn cf hcf hpre
      | some g =>
        rw [herr, hfee] at hpre
        have hfg : f < g := hpre g (by simp)
        have hpre' : ∀ q ∈ successFees pre', f < q := fun q hq => hpre q (by simp [hq])
        rcases hcf with rfl | ⟨c, rfl, hc⟩
        · simp only [selectLoop, herr, Option.isSome_none, Bool.false_eq_true, if_false, hfee]
          exact ih (some name) (some g) (Or.inr ⟨g, rfl, hfg⟩) hpre'
        · by_cases hlt : g < c
          · simp only [selectLoop, herr, Option.isSome_none, Bool.false_eq_true, if_false, hfee]
            rw [if_pos hlt]
            exact ih (some name) (some g) (Or.inr ⟨g, rfl, hfg⟩) hpre'
          · simp only [selectLoop, herr, Option.isSome_none, Bool.false_eq_true, if_false, hfee]
            rw [if_neg hlt]
            exact ih cn (some c) (Or.inr ⟨c, rfl, hc⟩) hpre'

/-- Claim C2: the selection returns the first Success entry of the
iteration order achieving the minimal fee; a later entry with an equal
fee never replaces an earlier one, because the comparison is strict. -/
theorem C2_first_wins (pre post : List (String × FeeData)) (n : String) (d : FeeData) (f : Int)
    (hd : d.error = none) (hf : d.total_fee_wei = some f)
    (hpre : ∀ p ∈ pre, ∀ g, p.2.error = none → p.2.total_fee_wei = some g → f < g)
    (hpost : ∀ p ∈ post, ∀ g, p.2.error = none → p.2.total_fee_wei = some g → f ≤ g) :
    select_cheapest_network (pre ++ (n, d) :: post) = some n := by
  rw [select_cheapest_network]
  refine selectLoop_first_min n d f post hd hf ?_ pre none none (Or.inl rfl) ?_
  · intro g hg
    obtain ⟨m, e, hm, he, hfe⟩ := (mem_successFees post g).mp hg
    exact hpost (m, e) hm g he hfe
  · intro g hg
    obtain ⟨m, e, hm, he, hfe⟩ := (mem_successFees pre g).mp hg
    exact hpre (m, e) hm g he hfe

/-- Witness for C2: a mapping in which optimism and base tie at fee 5;
optimism appears first in iteration order and is returned. -/
theorem C2_first_wins_witness :
    select_cheapest_network
      ([("arbitrum", feeOnlyEntry 7)] ++ ("optimism", feeOnlyEntry 5) :: [("base", feeOnlyEntry 5)]) =
      some "optimism" :=
  C2_first_wins [("arbitrum", feeOnlyEntry 7)] [("base", feeOnlyEntry 5)]
    "optimism" (feeOnlyEntry 5) 5 rfl rfl
    (by
      intro p hp g he hfe
      simp only [List.mem_singleton] at hp
      subst hp
      simp only [feeOnlyEntry] at hfe
      have : (7 : Int) = g := by simpa using hfe
      omega)
    (by
      intro p hp g he hfe
      simp only [List.mem_singleton] at hp
      subst hp
      simp only [feeOnlyEntry] at hfe
      have : (5 : Int) = g := by simpa using hfe
      omega)

/-- Dropping the entries that carry an `error` key does not change the
run of the selection loop. -/
theorem selectLoop_filter_no_err (l : List (String × FeeData)) :
    ∀ cn cf, selectLoop (l.filter fun p => p.2.error.isNone) cn cf = selectLoop l cn cf := by
  induction l with
  | nil => intro cn cf; rfl
  | cons p rest ih =>
    intro cn cf
    obtain ⟨name, data⟩ := p
    cases herr : data.error with
    | some m =>
      rw [List.filter_cons_of_neg (by simp [herr])]
      rw [selectLoop]
      simp only [herr, Option.isSome_some, if_true]
      exact ih cn cf
    | none =>
      rw [List.filter_cons_of_pos (by simp [herr])]
      cases hfee : data.total_fee_wei with
      | none =>
        simp only [selectLoop, herr, Option.isSome_none, Bool.false_eq_true, if_false, hfee]
        exact ih cn cf
      | some fee =>
        cases cf with
        | none =>
          simp only [selectLoop, herr, Option.isSome_none, Bool.false_eq_true, if_false, hfee]
          exact ih (some name) (some fee)
        | some c =>
          by_cases hlt : fee < c
          · simp only [selectLoop, herr, Option.isSome_none, Bool.false_eq_true, if_false, hfee]
            rw [if_pos hlt, if_pos hlt]
            exact ih (some name) (some fee)
          · simp only [selectLoop, herr, Option.isSome_none, Bool.false_eq_true, if_false, hfee]
            rw [if_neg hlt, if_neg hlt]
            exact ih cn (some c)

/-- Claim C3: the selection ignores Failure entries entirely, so it
equals the selection over the mapping with every entry carrying an
`error` key removed first. -/
theorem C3_ignores_failures (costs : List (String × FeeData)) :
    select_cheapest_network costs =
      select_cheapest_network (costs.filter fun p => p.2.error.isNone) :=
  (selectLoop_filter_no_err costs none none).symm

/-- An entry with no `error` key and no `total_fee_wei` key is skipped by
the loop without changing its state. -/
theorem selectLoop_skip_entry (n : String) (d : FeeData)
    (hd : d.error = none) (hf : d.total_fee_wei = none)
    (post : List (String × FeeData)) :
    ∀ (pre : List (String × FeeData)) (cn : Option String) (cf : Option Int),
      selectLoop (pre ++ (n, d) :: post) cn cf = selectLoop (pre ++ post) cn cf := by
  intro pre
  induction pre with
  | nil =>
    intro cn cf
    rw [List.nil_append, List.nil_append, selectLoop]
    simp only [hd, Option.isSome_none, Bool.false_eq_true, if_false, hf]
  | cons p pre' ih =>
    intro cn cf
    obtain ⟨name, data⟩ := p
    rw [List.cons_append, List.cons_append]
    cases herr : data.error with
    | some m =>
      simp only [selectLoop, herr, Option.isSome_some, if_true]
      exact ih cn cf
    | none =>
      cases hfee : data.total_fee_wei with
      | none =>
        simp only [selectLoop, herr, Option.isSome_none, Bool.false_eq_true, if_false, hfee]
        exact ih cn cf
      | some fee =>
        cases cf with
        | none =>
          simp only [selectLoop, herr, Option.isSome_none, Bool.false_eq_true, if_false, hfee]
          exact ih (some name) (some fee)
        | some c =>
          by_cases hlt : fee < c
          · simp only [selectLoop, herr, Option.isSome_none, Bool.false_eq_true, if_false, hfee]
            rw [if_pos hlt, if_pos hlt]
            exact ih (some name) (some fee)
          · simp only [selectLoop, herr, Option.isSome_none, Bool.false_eq_true, if_false, hfee]
            rw [if_neg hlt, if_neg hlt]
            exact ih cn (some c)

/-- A mapping whose entries all lack both keys selects nothing. -/
theorem select_all_skipped (costs : List (String × FeeData))
    (h : ∀ p ∈ costs, p.2.error = none ∧ p.2.total_fee_wei = none) :
    select_cheapest_network costs = none := by
  rw [select_none_iff, successFees_eq_nil]
  intro p hp
  obtain ⟨he, hfe⟩ := h p hp
  simp [isSuccessEntry, he, hfe]

/-- Claim C10: an entry with no `error` key and an absent `total_fee_wei`
is silently skipped - the result is that of the mapping without it - and
a mapping made only of such entries selects nothing. -/
theorem C10_skip_feeless (pre post : List (String × FeeData)) (n : String) (d : FeeData)
    (hd : d.error = none) (hf : d.total_fee_wei = none) :
    select_cheapest_network (pre ++ (n, d) :: post) =
      select_cheapest_network (pre ++ post) ∧
    (∀ costs : List (String × FeeData),
      (∀ p ∈ costs, p.2.error = none ∧ p.2.total_fee_wei = none) →
      select_cheapest_network costs = none) :=
  ⟨selectLoop_skip_entry n d hd hf post pre none none, select_all_skipped⟩

/-- Witness for C10: removing a keyless optimism entry leaves the
selection over arbitrum and base unchanged. -/
theorem C10_skip_feeless_witness :
    (select_cheapest_network
        ([("arbitrum", feeOnlyEntry 9)] ++
          ("optimism", FeeData.mk none none none none none none) :: [("base", feeOnlyEntry 4)]) =
      select_cheapest_network ([("arbitrum", feeOnlyEntry 9)] ++ [("base", feeOnlyEntry 4)])) ∧
    (∀ costs : List (String × FeeData),
      (∀ p ∈ costs, p.2.error = none ∧ p.2.total_fee_wei = none) →
      select_cheapest_network costs = none) :=
  C10_skip_feeless [("arbitrum", feeOnlyEntry 9)] [("base", feeOnlyEntry 4)]
    "optimism" (FeeData.mk none none none none none none) rfl rfl

/-- The result mapping of the estimation loop is the pointwise image of
the registry: the entry of each network is computed from the queries of
that network alone. -/
theorem estimate_loop_results (env : EstimateEnv) (fc tc : String) (aw : Int) (iu : Bool)
    (l : List (String × NetworkConfig)) :
    (estimate_loop env fc tc aw iu l).1 =
      l.map fun q => (q.1, (estimate_one env q.1 q.2 fc tc aw iu).1) := by
  induction l with
  | nil => rfl
  | cons q rest ih =>
    obtain ⟨name, cfg⟩ := q
    simp only [estimate_loop, List.map_cons, ih]

/-- Every entry the per-network body produces is a Success (no `error`
key, fee present) or a Failure (an `error` key). -/
theorem estimate_one_shape (env : EstimateEnv) (name : String) (cfg : NetworkConfig)
    (fc tc : String) (aw : Int) (iu : Bool) :
    isSuccessEntry (estimate_one env name cfg fc tc aw iu).1 = true ∨
    isFailureEntry (estimate_one env name cfg fc tc aw iu).1 = true := by
  rw [estimate_one]
  cases h1 : env.gas_price name with
  | error e => right; simp [isFailureEntry, failureEntry, h1]
  | ok gp =>
    cases h2 : env.get_transaction_count name fc with
    | error e => right; simp [isFailureEntry, failureEntry, h1, h2]
    | ok nonce =>
      cases h3 : env.estimate_gas name ⟨fc, tc, aw, nonce⟩ with
      | error e => right; simp [isFailureEntry, failureEntry, h1, h2, h3]
      | ok g =>
        cases iu with
        | true => left; simp [isSuccessEntry, h1, h2, h3]
        | false => left; simp [isSuccessEntry, h1, h2, h3]

/-- With a nonempty registry and both checksums succeeding, estimation
returns exactly the mapping and trace of the loop. -/
theorem estimate_ok_of_valid (env : EstimateEnv)
    (from_address to_address : String) (amount_wei : Int) (include_usd : Bool)
    (fc tc : String) (hne : env.networks ≠ [])
    (hfv : env.to_checksum_address from_address = .ok fc)
    (htv : env.to_checksum_address to_address = .ok tc) :
    estimate_transfer_costs env from_address to_address amount_wei include_usd =
      (.ok (estimate_loop env fc tc amount_wei include_usd env.networks).1,
       (estimate_loop env fc tc amount_wei include_usd env.networks).2) := by
  rw [estimate_transfer_costs]
  cases hn : env.networks with
  | nil => exact absurd hn hne
  | cons a b => rw [hfv, htv]

/-- Inversion: a successful estimation arises from successful checksums
and equals the output of the loop. -/
theorem estimate_ok_inv (env : EstimateEnv) (from_address to_address : String)
    (amount_wei : Int) (include_usd : Bool)
    (results : List (String × FeeData)) (evs : List Event)
    (h : estimate_transfer_costs env from_address to_address amount_wei include_usd =
      (.ok results, evs)) :
    ∃ fc tc, env.to_checksum_address from_address = .ok fc ∧
      env.to_checksum_address to_address = .ok tc ∧
      results = (estimate_loop env fc tc amount_wei include_usd env.networks).1 ∧
      evs = (estimate_loop env fc tc amount_wei include_usd env.networks).2 := by
  rw [estimate_transfer_costs] at h
  cases hn : env.networks with
  | nil => rw [hn] at h; exact absurd h (by simp)
  | cons a b =>
    rw [hn] at h
    cases hfc : env.to_checksum_address from_address with
    | error e => rw [hfc] at h; exact absurd h (by simp)
    | ok fc =>
      rw [hfc] at h
      cases htc : env.to_checksum_address to_address with
      | error e => rw [htc] at h; exact absurd h (by simp)
      | ok tc =>
        rw [htc] at h
        simp only [Prod.mk.injEq, Except.ok.injEq] at h
        obtain ⟨h1, h2⟩ := h
        exact ⟨fc, tc, rfl, rfl, h1.symm, h2.symm⟩

/-- Claim C4: with a nonempty registry and valid addresses, estimation
returns a mapping with exactly one entry per configured network in
registry order; the entry of each network is a function of its own queries
(so an exception on one network only makes the entry of that network a
Failure, and the remaining networks are still processed), and every entry is a
Success or a Failure. -/
theorem C4_entry_per_network (env : EstimateEnv)
    (from_address to_address : String) (amount_wei : Int) (include_usd : Bool)
    (fc tc : String)
    (hne : env.networks ≠ [])
    (hfv : env.to_checksum_address from_address = .ok fc)
    (htv : env.to_checksum_address to_address = .ok tc) :
    ∃ results evs,
      estimate_transfer_costs env from_address to_address amount_wei include_usd =
        (.ok results, evs) ∧
      results.map Prod.fst = env.networks.map Prod.fst ∧
      (∀ q ∈ env.networks,
        (q.1, (estimate_one env q.1 q.2 fc tc amount_wei include_usd).1) ∈ results) ∧
      (∀ p ∈ results, isSuccessEntry p.2 = true ∨ isFailureEntry p.2 = true) := by
  refine ⟨_, _,
    estimate_ok_of_valid env from_address to_address amount_wei include_usd fc tc hne hfv htv,
    ?_, ?_, ?_⟩
  · rw [estimate_loop_results, List.map_map]
    rfl
  · intro q hq
    rw [estimate_loop_results]
    exact List.mem_map_of_mem _ hq
  · intro p hp
    rw [estimate_loop_results] at hp
    obtain ⟨q, hq, rfl⟩ := List.mem_map.mp hp
    exact estimate_one_shape env q.1 q.2 fc tc amount_wei include_usd

/-- Witness for C4: in `mixedEnv` the optimism query raises, yet the
result holds one entry per default network. -/
theorem C4_entry_per_network_witness :
    ∃ results evs,
      estimate_transfer_costs mixedEnv "0xa" "0xb" 5 true = (.ok results, evs) ∧
      results.map Prod.fst = mixedEnv.networks.map Prod.fst ∧
      (∀ q ∈ mixedEnv.networks,
        (q.1, (estimate_one mixedEnv q.1 q.2 "0xa" "0xb" 5 true).1) ∈ results) ∧
      (∀ p ∈ results, isSuccessEntry p.2 = true ∨ isFailureEntry p.2 = true) :=
  C4_entry_per_network mixedEnv "0xa" "0xb" 5 true "0xa" "0xb" (by decide) rfl rfl

/-- Claim C5: with a nonempty registry, a checksum failure on either
address raises ValueError before any per-network work: the trace is
empty (zero gas-price, nonce, gas-estimate or oracle calls) and no
result mapping is produced. -/
theorem C5_fail_fast (env : EstimateEnv)
    (from_address to_address : String) (amount_wei : Int) (include_usd : Bool)
    (hne : env.networks ≠ [])
    (hbad : (∃ e, env.to_checksum_address from_address = .error e) ∨
            (∃ e, env.to_checksum_address to_address = .error e)) :
    ∃ m, estimate_transfer_costs env from_address to_address amount_wei include_usd =
        (.error (.invalidAddress m), []) ∧
      (PyError.invalidAddress m).isValueError = true := by
  rw [estimate_transfer_costs]
  cases hn : env.networks with
  | nil => exact absurd hn hne
  | cons a b =>
    cases hfc : env.to_checksum_address from_address with
    | error e => exact ⟨"Invalid address provided: " ++ e, rfl, rfl⟩
    | ok fc =>
      cases htc : env.to_checksum_address to_address with
      | error e => exact ⟨"Invalid address provided: " ++ e, rfl, rfl⟩
      | ok tc =>
        rcases hbad with ⟨e, he⟩ | ⟨e, he⟩
        · rw [hfc] at he; exact absurd he (by simp)
        · rw [htc] at he; exact absurd he (by simp)

/-- Witness for C5 with a failing sender checksum. -/
theorem C5_fail_fast_witness :
    ∃ m, estimate_transfer_costs mixedEnv "0xbad" "0xb" 5 true =
        (.error (.invalidAddress m), []) ∧
      (PyError.invalidAddress m).isValueError = true :=
  C5_fail_fast mixedEnv "0xbad" "0xb" 5 true (by decide)
    (Or.inl ⟨"checksum failed", rfl⟩)

/-- In a Success entry the loop body stores the product of the gas price
and gas estimate it fetched. -/
theorem estimate_one_fee_product (env : EstimateEnv) (name : String) (cfg : NetworkConfig)
    (fc tc : String) (aw : Int) (iu : Bool) :
    ∀ gp g f, (estimate_one env name cfg fc tc aw iu).1.gas_price_wei = some gp →
      (estimate_one env name cfg fc tc aw iu).1.estimated_gas = some g →
      (estimate_one env name cfg fc tc aw iu).1.total_fee_wei = some f →
      f = gp * g := by
  rw [estimate_one]
  cases h1 : env.gas_price name with
  | error e => intro gp g f hgp _ _; simp [failureEntry, h1] at hgp
  | ok gas_price =>
    cases h2 : env.get_transaction_count name fc with
    | error e => intro gp g f hgp _ _; simp [failureEntry, h1, h2] at hgp
    | ok nonce =>
      cases h3 : env.estimate_gas name ⟨fc, tc, aw, nonce⟩ with
      | error e => intro gp g f hgp _ _; simp [failureEntry, h1, h2, h3] at hgp
      | ok estimated_gas =>
        cases iu with
        | true =>
          intro gp g f hgp hge hfw
          simp [h1, h2, h3] at hgp hge hfw
          subst_vars
          rfl
        | false =>
          intro gp g f hgp hge hfw
          simp [h1, h2, h3] at hgp hge hfw
          subst_vars
          rfl

/-- Claim C6: every Success entry of the returned mapping reports
`total_fee_wei` equal to the exact integer product of its reported gas
price and gas limit. -/
theorem C6_fee_product (env : EstimateEnv) (from_address to_address : String)
    (amount_wei : Int) (include_usd : Bool)
    (results : List (String × FeeData)) (evs : List Event)
    (h : estimate_transfer_costs env from_address to_address amount_wei include_usd =
      (.ok results, evs)) :
    ∀ p ∈ results, ∀ gp g f, p.2.gas_price_wei = some gp →
      p.2.estimated_gas = some g → p.2.total_fee_wei = some f → f = gp * g := by
  obtain ⟨fc, tc, hfc, htc, hres, hevs⟩ :=
    estimate_ok_inv env from_address to_address amount_wei include_usd results evs h
  subst hres
  intro p hp
  rw [estimate_loop_results] at hp
  obtain ⟨q, hq, rfl⟩ := List.mem_map.mp hp
  exact estimate_one_fee_product env q.1 q.2 fc tc amount_wei include_usd

/-- Witness for C6: the arbitrum entry of `happyEnv` reports fee 6 from
gas price 2 and gas estimate 3. -/
theorem C6_fee_product_witness : (6 : Int) = 2 * 3 := by
  have h := C6_fee_product happyEnv "0xa" "0xb" 5 true
    (estimate_loop happyEnv "0xa" "0xb" 5 true happyEnv.networks).1
    (estimate_loop happyEnv "0xa" "0xb" 5 true happyEnv.networks).2
    (estimate_ok_of_valid happyEnv "0xa" "0xb" 5 true "0xa" "0xb" (by decide) rfl rfl)
  have hmem : ("arbitrum",
      (estimate_one happyEnv "arbitrum" ⟨"arbitrum", "https://arb1.arbitrum.io/rpc", 42161, "ETH"⟩
        "0xa" "0xb" 5 true).1) ∈
      (estimate_loop happyEnv "0xa" "0xb" 5 true happyEnv.networks).1 := by
    rw [estimate_loop_results]
    exact List.mem_map.mpr
      ⟨("arbitrum", ⟨"arbitrum", "https://arb1.arbitrum.io/rpc", 42161, "ETH"⟩), by decide, rfl⟩
  exact h _ hmem 2 3 6 rfl rfl rfl

theorem countOracle_append (a b : List Event) :
    countOracle (a ++ b) = countOracle a + countOracle b := by
  simp [countOracle, List.filter_append]

/-- With include_usd, the loop body calls the oracle exactly when the
three RPC queries of its network succeed. -/
theorem countOracle_estimate_one (env : EstimateEnv) (name : String) (cfg : NetworkConfig)
    (fc tc : String) (aw : Int) :
    countOracle (estimate_one env name cfg fc tc aw true).2 =
      if queriesSucceed env fc tc aw name then 1 else 0 := by
  rw [estimate_one, queriesSucceed]
  cases h1 : env.gas_price name with
  | error e => simp [countOracle, h1]
  | ok gp =>
    cases h2 : env.get_transaction_count name fc with
    | error e => simp [countOracle, h1, h2]
    | ok nonce =>
      cases h3 : env.estimate_gas name ⟨fc, tc, aw, nonce⟩ with
      | error e => simp [countOracle, h1, h2, h3]
      | ok g => simp [countOracle, h1, h2, h3]

theorem countOracle_estimate_loop (env : EstimateEnv) (fc tc : String) (aw : Int)
    (l : List (String × NetworkConfig)) :
    countOracle (estimate_loop env fc tc aw true l).2 =
      (l.filter fun q => queriesSucceed env fc tc aw q.1).length := by
  induction l with
  | nil => rfl
  | cons q rest ih =>
    obtain ⟨name, cfg⟩ := q
    simp only [estimate_loop]
    rw [countOracle_append, countOracle_estimate_one, ih, List.filter_cons]
    by_cases h : queriesSucceed env fc tc aw name
    · simp [h, Nat.add_comm]
    · simp [h]

/-- Claim C8 counterexample: in a concrete environment over the default
three-network registry in which every query succeeds, a single
estimation call with include_usd makes three oracle calls, not one. -/
theorem C8_counterexample_three_calls :
    countOracle (estimate_transfer_costs happyEnv "0xa" "0xb" 5 true).2 = 3 ∧
    countOracle (estimate_transfer_costs happyEnv "0xa" "0xb" 5 true).2 ≠ 1 := by
  constructor
  · decide
  · decide

/-- Claim C8 amended: with include_usd, the USD price oracle is invoked
once per network whose three RPC queries succeed - up to once per
configured network per estimation call - not once per estimation call. -/
theorem C8_amended_oracle_per_network (env : EstimateEnv)
    (from_address to_address : String) (amount_wei : Int) (fc tc : String)
    (hne : env.networks ≠ [])
    (hfv : env.to_checksum_address from_address = .ok fc)
    (htv : env.to_checksum_address to_address = .ok tc) :
    countOracle (estimate_transfer_costs env from_address to_address amount_wei true).2 =
      (env.networks.filter fun q => queriesSucceed env fc tc amount_wei q.1).length := by
  rw [estimate_ok_of_valid env from_address to_address amount_wei true fc tc hne hfv htv]
  exact countOracle_estimate_loop env fc tc amount_wei env.networks

/-- Witness for the amended C8: in `mixedEnv` two of the three networks
succeed and exactly that many oracle calls are made. -/
theorem C8_amended_oracle_per_network_witness :
    countOracle (estimate_transfer_costs mixedEnv "0xa" "0xb" 5 true).2 =
      (mixedEnv.networks.filter fun q => queriesSucceed mixedEnv "0xa" "0xb" 5 q.1).length :=
  C8_amended_oracle_per_network mixedEnv "0xa" "0xb" 5 "0xa" "0xb" (by decide) rfl rfl

/-- The calls the per-network estimation body issues are query events,
never dispatch events. -/
theorem estimate_one_no_dispatch (env : EstimateEnv) (name : String) (cfg : NetworkConfig)
    (fc tc : String) (aw : Int) (iu : Bool) :
    ∀ ev ∈ (estimate_one env name cfg fc tc aw iu).2, ev.isDispatch = false := by
  rw [estimate_one]
  cases h1 : env.gas_price name with
  | error e =>
    intro ev hev
    simp [h1] at hev
    subst hev
    rfl
  | ok gp =>
    cases h2 : env.get_transaction_count name fc with
    | error e =>
      intro ev hev
      simp [h1, h2] at hev
      rcases hev with rfl | rfl <;> rfl
    | ok nonce =>
      cases h3 : env.estimate_gas name ⟨fc, tc, aw, nonce⟩ with
      | error e =>
        intro ev hev
        simp [h1, h2, h3] at hev
        rcases hev with rfl | rfl | rfl <;> rfl
      | ok g =>
        cases iu with
        | true =>
          intro ev hev
          simp [h1, h2, h3] at hev
          rcases hev with rfl | rfl | rfl | rfl <;> rfl
        | false =>
          intro ev hev
          simp [h1, h2, h3] at hev
          rcases hev with rfl | rfl | rfl <;> rfl

theorem estimate_loop_no_dispatch (env : EstimateEnv) (fc tc : String) (aw : Int) (iu : Bool)
    (l : List (String × NetworkConfig)) :
    ∀ ev ∈ (estimate_loop env fc tc aw iu l).2, ev.isDispatch = false := by
  induction l with
  | nil => intro ev hev; simp [estimate_loop] at hev
  | cons q rest ih =>
    obtain ⟨name, cfg⟩ := q
    intro ev hev
    simp only [estimate_loop, List.mem_append] at hev
    rcases hev with hev | hev
    · exact estimate_one_no_dispatch env name cfg fc tc aw iu ev hev
    · exact ih ev hev

/-- The trace of a successful estimation holds no dispatch event. -/
theorem estimate_events_no_dispatch (env : EstimateEnv) (fa ta : String) (aw : Int) (iu : Bool)
    (results : List (String × FeeData)) (evs : List Event)
    (h : estimate_transfer_costs env fa ta aw iu = (.ok results, evs)) :
    ∀ ev ∈ evs, ev.isDispatch = false := by
  obtain ⟨fc, tc, hfc, htc, hres, hevs⟩ := estimate_ok_inv env fa ta aw iu results evs h
  subst hevs
  exact estimate_loop_no_dispatch env fc tc aw iu env.networks

/-- Claim C7: when estimation succeeds but selection yields no network,
route_and_send fails with the 500 no-viable-route error; the transaction
sender is never constructed and no dispatch call is issued - the trace is
exactly the estimation trace and holds no dispatch event. -/
theorem C7_no_viable_route (eenv : EstimateEnv) (senv : SendEnv)
    (env_private_key : Option String) (req : EstimateRequest)
    (costs : List (String × FeeData)) (evs : List Event)
    (hest : estimate_transfer_costs eenv req.from_address req.to_address
        (to_wei_ether req.amount_eth) req.include_usd = (.ok costs, evs))
    (hsel : select_cheapest_network costs = none) :
    route_and_send eenv senv env_private_key req =
      (.httpError 500 "Failed to estimate costs on all networks", evs) ∧
    ∀ ev ∈ evs, ev.isDispatch = false := by
  constructor
  · simp only [route_and_send, hest, hsel]
  · exact estimate_events_no_dispatch eenv req.from_address req.to_address
      (to_wei_ether req.amount_eth) req.include_usd costs evs hest

/-- Witness for C7: all three networks fail estimation; the endpoint
answers 500 and the trace has only the three gas-price queries. -/
theorem C7_no_viable_route_witness :
    route_and_send allFailEnv stubSendEnv none wReq =
      (.httpError 500 "Failed to estimate costs on all networks",
       [Event.gasPriceQuery "arbitrum", Event.gasPriceQuery "optimism",
        Event.gasPriceQuery "base"]) ∧
    ∀ ev ∈ [Event.gasPriceQuery "arbitrum", Event.gasPriceQuery "optimism",
        Event.gasPriceQuery "base"],
      Event.isDispatch ev = false :=
  C7_no_viable_route allFailEnv stubSendEnv none wReq
    [("arbitrum", failureEntry "down"), ("optimism", failureEntry "down"),
     ("base", failureEntry "down")]
    [Event.gasPriceQuery "arbitrum", Event.gasPriceQuery "optimism",
     Event.gasPriceQuery "base"]
    rfl (by decide)

/-- Claim C9: a missing signing credential (argument absent or falsy and
environment value absent or falsy) raises ValueError at
TransactionSender construction time, and send_transfer itself can never
produce the missing-credential error. -/
theorem C9_missing_credential (private_key env_private_key : Option String)
    (h1 : truthyStr private_key = false) (h2 : truthyStr env_private_key = false) :
    TransactionSender.init private_key env_private_key =
      .error PyError.missingCredential ∧
    PyError.missingCredential.isValueError = true ∧
    ∀ (senv : SendEnv) (s : TransactionSender)
      (network_name from_address to_address : String) (amount_wei : Int),
      (TransactionSender.send_transfer senv s network_name from_address to_address amount_wei).1 ≠
        Except.error PyError.missingCredential := by
  refine ⟨?_, rfl, ?_⟩
  · cases private_key with
    | none =>
      cases env_private_key with
      | none => rfl
      | some t =>
        have ht : t = "" := by simpa [truthyStr] using h2
        subst ht
        rfl
    | some s =>
      have hs : s = "" := by simpa [truthyStr] using h1
      subst hs
      cases env_private_key with
      | none => rfl
      | some t =>
        have ht : t = "" := by simpa [truthyStr] using h2
        subst ht
        rfl
  · intro senv s network_name from_address to_address amount_wei
    rw [TransactionSender.send_transfer]
    repeat' split
    all_goals simp

/-- Witness for C9: no argument and an empty PRIVATE_KEY value. -/
theorem C9_missing_credential_witness :
    TransactionSender.init none (some "") = .error PyError.missingCredential ∧
    PyError.missingCredential.isValueError = true ∧
    ∀ (senv : SendEnv) (s : TransactionSender)
      (network_name from_address to_address : String) (amount_wei : Int),
      (TransactionSender.send_transfer senv s network_name from_address to_address amount_wei).1 ≠
        Except.error PyError.missingCredential :=
  C9_missing_credential none (some "") rfl rfl

end L2Router
